import Mathlib

/-!
Verification of the Monkey interpreter (parser and tree-walking evaluator).

This file gives a shallow embedding of the Go sources:
  - monkey/parser/parser.go       (Pratt parser)
  - the evaluator package          (Eval and its helpers)
  - the object environment         (Environment, Get, Set)

Machine integers (int64) are modelled as Int with an explicit wrap at
2 ^ 64; Go runtime panics (such as integer division by zero and nil
dereferences) are modelled by an explicit fault outcome.  Heap objects
and environments are modelled by explicit heaps indexed by Nat, so that
pointer identity (the NULL, TRUE and FALSE singletons, and in-place
mutation) is represented faithfully.  Recursive procedures take an
explicit fuel argument; a run with enough fuel reproduces the source
behaviour, and running out of fuel is a fault (the corresponding Go
computation does not terminate or recurses deeper than the fuel).

The token and object type definitions (token.go, object.go, ast.go and
the lexer) are not part of the given sources; where their content is
needed it is modelled from the spec, as marked in the doc comments.
-/

/-- Modelled from the spec: the token package is an external collaborator
(spec section 1: a tokenizer producing typed tokens, kind plus literal
text).  These are the token kinds the parser dispatches on. -/
inductive TokenType where
  | ILLEGAL | EOF
  | IDENT | INT
  | ASSIGN | PLUS | MINUS | BANG | ASTERISK | SLASH
  | LT | GT | EQ | NOT_EQ
  | COMMA | SEMICOLON
  | LPAREN | RPAREN | LBRACE | RBRACE
  | FUNCTION | LET | TRUE | FALSE | IF | ELSE | RETURN
deriving DecidableEq, Repr

/-- Modelled from the spec: the string rendering of a token kind, used when
a token kind is interpolated into a parser error message (token.go is not
in the given sources; the names follow the standard Monkey token set). -/
def TokenType.str : TokenType → String
  | .ILLEGAL => "ILLEGAL"
  | .EOF => "EOF"
  | .IDENT => "IDENT"
  | .INT => "INT"
  | .ASSIGN => "="
  | .PLUS => "+"
  | .MINUS => "-"
  | .BANG => "!"
  | .ASTERISK => "*"
  | .SLASH => "/"
  | .LT => "<"
  | .GT => ">"
  | .EQ => "=="
  | .NOT_EQ => "!="
  | .COMMA => ","
  | .SEMICOLON => ";"
  | .LPAREN => "("
  | .RPAREN => ")"
  | .LBRACE => "\x7b"
  | .RBRACE => "\x7d"
  | .FUNCTION => "FUNCTION"
  | .LET => "LET"
  | .TRUE => "TRUE"
  | .FALSE => "FALSE"
  | .IF => "IF"
  | .ELSE => "ELSE"
  | .RETURN => "RETURN"

/-- A token: kind plus literal text (token.Token). -/
structure Token where
  ttype : TokenType
  literal : String
deriving DecidableEq, Repr

/-!
The AST (package ast).  Node kinds follow the Go structs.  In Go, child
expression fields can be nil (the parser stores nil when a sub-parse
fails, and parseLetStatement and parseReturnStatement never set the
Value field at all), so child expressions are Option-valued.  The slices
Parameters and Arguments can themselves be nil (distinct from empty), so
they are Option-valued lists, and an argument slot can hold a nil
expression.  Statement lists are lists of possibly nil statements: when
parseLetStatement fails it returns a typed nil pointer, and wrapping
that pointer in the ast.Statement interface yields a NON-nil interface
value, so the stmt != nil guards of ParseProgram and
parseBlockStatement pass and the nil statement is appended; none in a
statement list models that typed-nil statement.  Token fields carry no
semantic content and are omitted.
-/

mutual
inductive Expr where
  | identE (name : String)
  | intE (value : Int)
  | boolE (value : Bool)
  | prefixE (op : String) (right : Option Expr)
  | infixE (op : String) (left : Option Expr) (right : Option Expr)
  | ifE (cond : Option Expr) (conseq : List (Option Stmt)) (alt : Option (List (Option Stmt)))
  | fnE (params : Option (List String)) (body : List (Option Stmt))
  | callE (fn : Option Expr) (args : Option (List (Option Expr)))

inductive Stmt where
  | letS (name : String) (value : Option Expr)
  | returnS (value : Option Expr)
  | exprS (expr : Option Expr)
end

/-!
Parser state.  The Go Parser keeps a lexer plus a two-token buffer
(curToken, peekToken); the lexer keeps answering EOF tokens after the
end of the input.  This is modelled by a position into the token list,
with an EOF token as default past the end.
-/

/-- Parser state: token stream with current position, plus the
accumulated error messages (Parser.errors). -/
structure Parser where
  toks : List Token
  pos : Nat
  errors : List String
deriving DecidableEq, Repr

/-- The EOF token the lexer produces past the end of the input. -/
def eofToken : Token := ⟨.EOF, ""⟩

def curToken (p : Parser) : Token := p.toks.getD p.pos eofToken

def peekToken (p : Parser) : Token := p.toks.getD (p.pos + 1) eofToken

/-- Parser.nextToken: advance the two-token buffer by one token. -/
def nextToken (p : Parser) : Parser := ⟨p.toks, p.pos + 1, p.errors⟩

def curTokenIs (t : TokenType) (p : Parser) : Bool := (curToken p).ttype = t

def peekTokenIs (t : TokenType) (p : Parser) : Bool := (peekToken p).ttype = t

/-- Parser.peekError: append the message for a failed token expectation.
The text mirrors parser.go line 449 exactly, capitalization included. -/
def peekError (t : TokenType) (p : Parser) : Parser :=
  ⟨p.toks, p.pos,
    p.errors ++
      ["Expected next token to be " ++ t.str ++ ". Got " ++
        (peekToken p).ttype.str ++ " instead"]⟩

/-- Parser.expectPeek: advance when the next token has the expected kind,
otherwise record a peekError and stay. -/
def expectPeek (t : TokenType) (p : Parser) : Bool × Parser :=
  if peekTokenIs t p then (true, nextToken p) else (false, peekError t p)

/-- Parser.noPrefixParseFnError (parser.go line 454). -/
def noPrefixFnError (t : TokenType) (p : Parser) : Parser :=
  ⟨p.toks, p.pos, p.errors ++ ["no prefix parse function for " ++ t.str ++ " found"]⟩

/-!
Precedence levels (the iota block in parser.go lines 28 to 37) and the
precedences table (lines 39 to 49).
-/

def LOWEST : Nat := 1
def EQUALS : Nat := 2
def LESSGREATER : Nat := 3
def SUM : Nat := 4
def PRODUCT : Nat := 5
def PREFIX : Nat := 6
def CALL : Nat := 7

/-- The precedences map: token kinds registered with an infix precedence. -/
def precedences : TokenType → Option Nat
  | .EQ => some EQUALS
  | .NOT_EQ => some EQUALS
  | .LT => some LESSGREATER
  | .GT => some LESSGREATER
  | .PLUS => some SUM
  | .MINUS => some SUM
  | .SLASH => some PRODUCT
  | .ASTERISK => some PRODUCT
  | .LPAREN => some CALL
  | _ => none

/-- Parser.curPrecedence: precedence of the current token, LOWEST if
unregistered. -/
def curPrecedence (p : Parser) : Nat := (precedences (curToken p).ttype).getD LOWEST

/-- Parser.peekPrecedence: precedence of the peek token, LOWEST if
unregistered. -/
def peekPrecedence (p : Parser) : Nat := (precedences (peekToken p).ttype).getD LOWEST

/-- Value of a base-10 digit list, most significant first; none when the
list is empty or holds a non-digit. -/
def digits10 : List Char → Option Nat
  | [] => none
  | [c] => if c.isDigit then some (c.toNat - 48) else none
  | c :: rest =>
    if c.isDigit then
      match digits10 rest with
      | some n => some ((c.toNat - 48) * 10 ^ rest.length + n)
      | none => none
    else none

/-- Modelled from the spec: strconv.ParseInt(lit, 10, 64) from the Go
standard library (an external collaborator), for decimal literals with
an optional leading minus sign, failing outside the signed 64-bit
range. -/
def parseInt64 (s : String) : Option Int :=
  match s.toList with
  | '-' :: rest =>
    match digits10 rest with
    | some n => if (n : Int) ≤ 2 ^ 63 then some (-(n : Int)) else none
    | none => none
  | l =>
    match digits10 l with
    | some n => if (n : Int) < 2 ^ 63 then some ((n : Int)) else none
    | none => none

/-- Parser.parseIdentifier. -/
def parseIdentifier (p : Parser) : Option Expr × Parser :=
  (some (.identE (curToken p).literal), p)

/-- Parser.parseIntegerLiteral: convert the literal, recording an error
and yielding nil on failure. -/
def parseIntegerLiteral (p : Parser) : Option Expr × Parser :=
  match parseInt64 (curToken p).literal with
  | some i => (some (.intE i), p)
  | none =>
    (none,
      ⟨p.toks, p.pos,
        p.errors ++ ["Could not parse " ++ (curToken p).literal ++ " as an integer"]⟩)

/-- Parser.parseBoolean: accept only the literals true and false,
recording an error and yielding nil otherwise. -/
def parseBoolean (p : Parser) : Option Expr × Parser :=
  if (curToken p).literal ≠ "true" ∧ (curToken p).literal ≠ "false" then
    (none,
      ⟨p.toks, p.pos,
        p.errors ++ ["Could not parse " ++ (curToken p).literal ++ " as a Boolean"]⟩)
  else
    (some (.boolE ((curToken p).literal = "true")), p)

/-- Loop of Parser.parseLetStatement lines 137 to 139: skip tokens until
the current token is a semicolon.  In Go this loop does not terminate
when no semicolon remains; fuel exhaustion models that case. -/
def skipToSemicolon : Nat → Parser → Parser
  | 0, p => p
  | fuel + 1, p =>
    if curTokenIs .SEMICOLON p then p else skipToSemicolon fuel (nextToken p)

/-- Parser.parseLetStatement: reads the name and the assign token, then
merely skips tokens up to the semicolon; the Value field is never set
(it stays nil). -/
def parseLetStatement (fuel : Nat) (p : Parser) : Option Stmt × Parser :=
  match expectPeek .IDENT p with
  | (false, p₁) => (none, p₁)
  | (true, p₁) =>
    let name := (curToken p₁).literal
    match expectPeek .ASSIGN p₁ with
    | (false, p₂) => (none, p₂)
    | (true, p₂) => (some (.letS name none), skipToSemicolon fuel p₂)

/-- Parser.parseReturnStatement: merely skips tokens up to the
semicolon; the ReturnValue field is never set (it stays nil). -/
def parseReturnStatement (fuel : Nat) (p : Parser) : Option Stmt × Parser :=
  (some (.returnS none), skipToSemicolon fuel p)

/-- Comma loop of Parser.parseFunctionParameters. -/
def fnParamsLoop : Nat → List String → Parser → Option (List String) × Parser
  | 0, _, p => (none, p)
  | fuel + 1, acc, p =>
    if peekTokenIs .COMMA p then
      let p₁ := nextToken (nextToken p)
      fnParamsLoop fuel (acc ++ [(curToken p₁).literal]) p₁
    else
      match expectPeek .RPAREN p with
      | (false, p₁) => (none, p₁)
      | (true, p₁) => (some acc, p₁)

/-- Parser.parseFunctionParameters. -/
def parseFunctionParameters (fuel : Nat) (p : Parser) : Option (List String) × Parser :=
  if peekTokenIs .RPAREN p then (some [], nextToken p)
  else
    let p₁ := nextToken p
    fnParamsLoop fuel [(curToken p₁).literal] p₁

/-!
The mutually recursive part of the parser, packed into a single
fuel-indexed function so that it is structurally recursive (and hence
computes by reduction).  Each PTask constructor stands for one of the
mutually recursive parser procedures; PRes packs their result types.
Every recursive call in parser.go decrements the fuel by one.
-/

/-- Result kinds of the mutually recursive parser procedures. -/
inductive PRes where
  | expr (e : Option Expr)
  | stmt (s : Option Stmt)
  | stmts (l : List (Option Stmt))
  | argl (l : Option (List (Option Expr)))

/-- Tasks: the mutually recursive parser procedures, with the loops of
ParseProgram, parseBlockStatement and parseCallArguments as accumulator
tasks. -/
inductive PTask where
  | expression (prec : Nat)
  | infixLoop (prec : Nat) (left : Option Expr)
  | prefixExprP
  | infixExprP (left : Option Expr)
  | groupedP
  | ifExprP
  | fnLitP
  | callExprP (fn : Option Expr)
  | callArgsP
  | callArgsLoop (acc : List (Option Expr))
  | blockP
  | blockLoop (acc : List (Option Stmt))
  | statementP
  | exprStmtP
  | programLoop (acc : List (Option Stmt))

/-- The packed parser.  Branch by branch it mirrors the corresponding
function in parser.go (the DEBUG tracing, a no-op by default, is
dropped). -/
def parseF : Nat → PTask → Parser → PRes × Parser
  | 0, _, p => (.expr none, p)
  | fuel + 1, .expression prec, p =>
    -- Parser.parseExpression: dispatch on the registered prefix handler
    -- for the current token kind, then run the infix loop on the result
    -- (the loop also runs when the handler returned nil).
    match (curToken p).ttype with
    | .IDENT =>
      match parseIdentifier p with
      | (e, p₁) => parseF fuel (.infixLoop prec e) p₁
    | .INT =>
      match parseIntegerLiteral p with
      | (e, p₁) => parseF fuel (.infixLoop prec e) p₁
    | .BANG =>
      match parseF fuel .prefixExprP p with
      | (.expr e, p₁) => parseF fuel (.infixLoop prec e) p₁
      | (_, p₁) => (.expr none, p₁)
    | .MINUS =>
      match parseF fuel .prefixExprP p with
      | (.expr e, p₁) => parseF fuel (.infixLoop prec e) p₁
      | (_, p₁) => (.expr none, p₁)
    | .TRUE =>
      match parseBoolean p with
      | (e, p₁) => parseF fuel (.infixLoop prec e) p₁
    | .FALSE =>
      match parseBoolean p with
      | (e, p₁) => parseF fuel (.infixLoop prec e) p₁
    | .LPAREN =>
      match parseF fuel .groupedP p with
      | (.expr e, p₁) => parseF fuel (.infixLoop prec e) p₁
      | (_, p₁) => (.expr none, p₁)
    | .IF =>
      match parseF fuel .ifExprP p with
      | (.expr e, p₁) => parseF fuel (.infixLoop prec e) p₁
      | (_, p₁) => (.expr none, p₁)
    | .FUNCTION =>
      match parseF fuel .fnLitP p with
      | (.expr e, p₁) => parseF fuel (.infixLoop prec e) p₁
      | (_, p₁) => (.expr none, p₁)
    | t => (.expr none, noPrefixFnError t p)
  | fuel + 1, .infixLoop prec left, p =>
    -- The for loop of parseExpression (lines 180 to 189): while the peek
    -- token is not a semicolon and binds tighter than prec, advance and
    -- apply its registered infix handler.
    if (peekToken p).ttype = .SEMICOLON then (.expr left, p)
    else if peekPrecedence p ≤ prec then (.expr left, p)
    else
      match (peekToken p).ttype with
      | .PLUS =>
        match parseF fuel (.infixExprP left) (nextToken p) with
        | (.expr e, p₁) => parseF fuel (.infixLoop prec e) p₁
        | (_, p₁) => (.expr none, p₁)
      | .MINUS =>
        match parseF fuel (.infixExprP left) (nextToken p) with
        | (.expr e, p₁) => parseF fuel (.infixLoop prec e) p₁
        | (_, p₁) => (.expr none, p₁)
      | .ASTERISK =>
        match parseF fuel (.infixExprP left) (nextToken p) with
        | (.expr e, p₁) => parseF fuel (.infixLoop prec e) p₁
        | (_, p₁) => (.expr none, p₁)
      | .SLASH =>
        match parseF fuel (.infixExprP left) (nextToken p) with
        | (.expr e, p₁) => parseF fuel (.infixLoop prec e) p₁
        | (_, p₁) => (.expr none, p₁)
      | .GT =>
        match parseF fuel (.infixExprP left) (nextToken p) with
        | (.expr e, p₁) => parseF fuel (.infixLoop prec e) p₁
        | (_, p₁) => (.expr none, p₁)
      | .LT =>
        match parseF fuel (.infixExprP left) (nextToken p) with
        | (.expr e, p₁) => parseF fuel (.infixLoop prec e) p₁
        | (_, p₁) => (.expr none, p₁)
      | .EQ =>
        match parseF fuel (.infixExprP left) (nextToken p) with
        | (.expr e, p₁) => parseF fuel (.infixLoop prec e) p₁
        | (_, p₁) => (.expr none, p₁)
      | .NOT_EQ =>
        match parseF fuel (.infixExprP left) (nextToken p) with
        | (.expr e, p₁) => parseF fuel (.infixLoop prec e) p₁
        | (_, p₁) => (.expr none, p₁)
      | .LPAREN =>
        match parseF fuel (.callExprP left) (nextToken p) with
        | (.expr e, p₁) => parseF fuel (.infixLoop prec e) p₁
        | (_, p₁) => (.expr none, p₁)
      | _ => (.expr left, p)
  | fuel + 1, .prefixExprP, p =>
    -- Parser.parsePrefixExpression.
    let op := (curToken p).literal
    match parseF fuel (.expression PREFIX) (nextToken p) with
    | (.expr right, p₁) => (.expr (some (.prefixE op right)), p₁)
    | (_, p₁) => (.expr none, p₁)
  | fuel + 1, .infixExprP left, p =>
    -- Parser.parseInfixExpression: called with the current token on the
    -- operator; parse the right side at the precedence of the operator.
    let op := (curToken p).literal
    let pr := curPrecedence p
    match parseF fuel (.expression pr) (nextToken p) with
    | (.expr right, p₁) => (.expr (some (.infixE op left right)), p₁)
    | (_, p₁) => (.expr none, p₁)
  | fuel + 1, .groupedP, p =>
    -- Parser.parseGroupedExpression.
    match parseF fuel (.expression LOWEST) (nextToken p) with
    | (.expr e, p₁) =>
      match expectPeek .RPAREN p₁ with
      | (false, p₂) => (.expr none, p₂)
      | (true, p₂) => (.expr e, p₂)
    | (_, p₁) => (.expr none, p₁)
  | fuel + 1, .ifExprP, p =>
    -- Parser.parseIfExpression.
    match expectPeek .LPAREN p with
    | (false, p₁) => (.expr none, p₁)
    | (true, p₁) =>
      match parseF fuel (.expression LOWEST) (nextToken p₁) with
      | (.expr cond, p₂) =>
        match expectPeek .RPAREN p₂ with
        | (false, p₃) => (.expr none, p₃)
        | (true, p₃) =>
          match expectPeek .LBRACE p₃ with
          | (false, p₄) => (.expr none, p₄)
          | (true, p₄) =>
            match parseF fuel .blockP p₄ with
            | (.stmts conseq, p₅) =>
              if peekTokenIs .ELSE p₅ then
                match expectPeek .LBRACE (nextToken p₅) with
                | (false, p₆) => (.expr none, p₆)
                | (true, p₆) =>
                  match parseF fuel .blockP p₆ with
                  | (.stmts alt, p₇) =>
                    (.expr (some (.ifE cond conseq (some alt))), p₇)
                  | (_, p₇) => (.expr none, p₇)
              else (.expr (some (.ifE cond conseq none)), p₅)
            | (_, p₅) => (.expr none, p₅)
      | (_, p₂) => (.expr none, p₂)
  | fuel + 1, .fnLitP, p =>
    -- Parser.parseFunctionLiteral: a failed parameter list (nil) does
    -- not stop the literal; the body is parsed regardless.
    match expectPeek .LPAREN p with
    | (false, p₁) => (.expr none, p₁)
    | (true, p₁) =>
      match parseFunctionParameters fuel p₁ with
      | (params, p₂) =>
        match parseF fuel .blockP (nextToken p₂) with
        | (.stmts body, p₃) => (.expr (some (.fnE params body)), p₃)
        | (_, p₃) => (.expr none, p₃)
  | fuel + 1, .callExprP fn, p =>
    -- Parser.parseCallExpression.
    match parseF fuel .callArgsP p with
    | (.argl args, p₁) => (.expr (some (.callE fn args)), p₁)
    | (_, p₁) => (.expr none, p₁)
  | fuel + 1, .callArgsP, p =>
    -- Parser.parseCallArguments.
    if peekTokenIs .RPAREN p then (.argl (some []), nextToken p)
    else
      match parseF fuel (.expression LOWEST) (nextToken p) with
      | (.expr e, p₁) => parseF fuel (.callArgsLoop [e]) p₁
      | (_, p₁) => (.argl none, p₁)
  | fuel + 1, .callArgsLoop acc, p =>
    -- Comma loop of parseCallArguments, then the closing paren.
    if peekTokenIs .COMMA p then
      match parseF fuel (.expression LOWEST) (nextToken (nextToken p)) with
      | (.expr e, p₁) => parseF fuel (.callArgsLoop (acc ++ [e])) p₁
      | (_, p₁) => (.argl none, p₁)
    else
      match expectPeek .RPAREN p with
      | (false, p₁) => (.argl none, p₁)
      | (true, p₁) => (.argl (some acc), p₁)
  | fuel + 1, .blockP, p =>
    -- Parser.parseBlockStatement: starts on the left brace.
    parseF fuel (.blockLoop []) (nextToken p)
  | fuel + 1, .blockLoop acc, p =>
    -- Statement loop of parseBlockStatement: until EOF or right brace.
    -- The stmt != nil guard never fires: parseStatement always returns
    -- a typed pointer wrapped in the interface, non-nil even when the
    -- pointer itself is nil, so every result is appended.
    if curTokenIs .EOF p ∨ curTokenIs .RBRACE p then (.stmts acc, p)
    else
      match parseF fuel .statementP p with
      | (.stmt s, p₁) => parseF fuel (.blockLoop (acc ++ [s])) (nextToken p₁)
      | (_, p₁) => (.stmts acc, p₁)
  | fuel + 1, .statementP, p =>
    -- Parser.parseStatement.
    match (curToken p).ttype with
    | .LET =>
      match parseLetStatement fuel p with
      | (s, p₁) => (.stmt s, p₁)
    | .RETURN =>
      match parseReturnStatement fuel p with
      | (s, p₁) => (.stmt s, p₁)
    | _ => parseF fuel .exprStmtP p
  | fuel + 1, .exprStmtP, p =>
    -- Parser.parseExpressionStatement.
    match parseF fuel (.expression LOWEST) p with
    | (.expr e, p₁) =>
      if peekTokenIs .SEMICOLON p₁ then (.stmt (some (.exprS e)), nextToken p₁)
      else (.stmt (some (.exprS e)), p₁)
    | (_, p₁) => (.stmt none, p₁)
  | fuel + 1, .programLoop acc, p =>
    -- Statement loop of Parser.ParseProgram: until EOF.  As in the
    -- block loop, the stmt != nil guard never fires (the interface
    -- value wraps a typed pointer), so every result is appended, the
    -- typed-nil let statements included.
    if curTokenIs .EOF p then (.stmts acc, p)
    else
      match parseF fuel .statementP p with
      | (.stmt s, p₁) => parseF fuel (.programLoop (acc ++ [s])) (nextToken p₁)
      | (_, p₁) => (.stmts acc, p₁)

/-- Parser.parseExpression, unpacked. -/
def parseExpression (fuel prec : Nat) (p : Parser) : Option Expr × Parser :=
  match parseF fuel (.expression prec) p with
  | (.expr e, p₁) => (e, p₁)
  | (_, p₁) => (none, p₁)

/-- Parser.parseStatement, unpacked. -/
def parseStatement (fuel : Nat) (p : Parser) : Option Stmt × Parser :=
  match parseF fuel .statementP p with
  | (.stmt s, p₁) => (s, p₁)
  | (_, p₁) => (none, p₁)

/-- Parser.ParseProgram, unpacked: the list of parsed statements (a
possibly nil statement per slot, see the AST comment). -/
def parseProgram (fuel : Nat) (p : Parser) : List (Option Stmt) × Parser :=
  match parseF fuel (.programLoop []) p with
  | (.stmts l, p₁) => (l, p₁)
  | (_, p₁) => ([], p₁)

/-- Parser.New on a token stream: fresh parser with no errors. -/
def newParser (toks : List Token) : Parser := ⟨toks, 0, []⟩

/-!
Runtime objects (package object).  Go objects live behind pointers, and
the evaluator relies on pointer identity (the NULL, TRUE, FALSE
singletons; boolean identity comparison; in-place mutation in the unary
minus), so objects are modelled by a heap: a list of object payloads
indexed by Nat, an index playing the role of a pointer.  A nil Object
is modelled as none at use sites (Option Nat).
-/

/-- Object payloads: Null, Boolean, Integer, ReturnValue (wrapping a
possibly nil object pointer), Error, and Function (parameters, body and
the pointer to the defining environment). -/
inductive HObj where
  | nullH
  | boolH (value : Bool)
  | intH (value : Int)
  | retH (value : Option Nat)
  | errH (message : String)
  | funH (params : Option (List String)) (body : List (Option Stmt)) (env : Nat)

/-- Modelled from the spec: object type tag strings (object.go is not in
the given sources; INTEGER and BOOLEAN appear verbatim in the spec
error messages, the rest follow the standard Monkey object set). -/
def NULL_OBJ : String := "NULL"
def BOOLEAN_OBJ : String := "BOOLEAN"
def INTEGER_OBJ : String := "INTEGER"
def RETURN_VALUE_OBJ : String := "RETURN_VALUE"
def ERROR_OBJ : String := "ERROR"
def FUNCTION_OBJ : String := "FUNCTION"

/-- The Type method of runtime objects. -/
def typeOf : HObj → String
  | .nullH => NULL_OBJ
  | .boolH _ => BOOLEAN_OBJ
  | .intH _ => INTEGER_OBJ
  | .retH _ => RETURN_VALUE_OBJ
  | .errH _ => ERROR_OBJ
  | .funH _ _ _ => FUNCTION_OBJ

/-- An environment: its own store (unique keys, mapping a name to a
possibly nil object pointer) and an optional outer environment
pointer. -/
structure Scope where
  store : List (String × Option Nat)
  outer : Option Nat

/-- The evaluator state: the object heap and the environment heap. -/
structure EState where
  objs : List HObj
  envs : List Scope

/-- Pointers to the three package-level singletons NULL, TRUE and FALSE,
allocated once in the var block of the evaluator package. -/
def NULL : Nat := 0
def TRUE : Nat := 1
def FALSE : Nat := 2

/-- State at program start: the three singletons on the object heap and
one fresh global environment (object.NewEnvironment) at index 0. -/
def initialState : EState :=
  ⟨[.nullH, .boolH true, .boolH false], [⟨[], none⟩]⟩

/-- Allocate an object: its pointer is the next heap index. -/
def allocObj (o : HObj) (st : EState) : Nat × EState :=
  (st.objs.length, ⟨st.objs ++ [o], st.envs⟩)

/-- Dereference an object pointer. -/
def getObj (st : EState) (ref : Nat) : Option HObj := st.objs.get? ref

/-- Overwrite the object a pointer points to (in-place mutation). -/
def setObj (st : EState) (ref : Nat) (o : HObj) : EState :=
  ⟨st.objs.set ref o, st.envs⟩

/-- Dereference a possibly nil object pointer. -/
def getOpt (st : EState) (r : Option Nat) : Option HObj :=
  match r with
  | some ref => getObj st ref
  | none => none

/-- Lookup in one store (a Go map read). -/
def storeLookup (s : List (String × Option Nat)) (n : String) : Option (Option Nat) :=
  match s with
  | [] => none
  | (k, v) :: rest => if k = n then some v else storeLookup rest n

/-- Write to one store (a Go map assignment: overwrite or add). -/
def storeInsert (s : List (String × Option Nat)) (n : String) (v : Option Nat) :
    List (String × Option Nat) :=
  match s with
  | [] => [(n, v)]
  | (k, w) :: rest => if k = n then (n, v) :: rest else (k, w) :: storeInsert rest n v

/-- Environment.Get: read the own store, then recurse into the outer
environment when absent.  The fuel bounds the chain length; call sites
pass the environment heap size, which bounds every acyclic chain. -/
def envGet : Nat → EState → Nat → String → Option (Option Nat)
  | 0, _, _, _ => none
  | fuel + 1, st, e, name =>
    match st.envs.get? e with
    | none => none
    | some sc =>
      match storeLookup sc.store name with
      | some v => some v
      | none =>
        match sc.outer with
        | some o => envGet fuel st o name
        | none => none

/-- Environment.Set: bind the name in the own store of the environment
the pointer designates (never in an outer one). -/
def envSet (st : EState) (e : Nat) (name : String) (v : Option Nat) : EState :=
  match st.envs.get? e with
  | none => st
  | some sc => ⟨st.objs, st.envs.set e ⟨storeInsert sc.store name v, sc.outer⟩⟩

/-- object.NewEnclosedEnvironment: a fresh environment with an empty
store, chained to the given outer environment. -/
def newEnclosedEnvironment (st : EState) (out : Nat) : Nat × EState :=
  (st.envs.length, ⟨st.objs, st.envs ++ [⟨[], some out⟩]⟩)

/-- object.NewEnvironment: a fresh environment with no outer link. -/
def newEnvironment (st : EState) : Nat × EState :=
  (st.envs.length, ⟨st.objs, st.envs ++ [⟨[], none⟩]⟩)

/-- Wrap of signed 64-bit two-complement arithmetic. -/
def wrap64 (x : Int) : Int := (x + 2 ^ 63) % 2 ^ 64 - 2 ^ 63

/-- Result of an evaluation step: an object pointer (possibly nil, the
Go nil Object), or a host-level fault (a Go runtime panic or fuel
exhaustion). -/
inductive Outcome where
  | ok (r : Option Nat)
  | fault (msg : String)
deriving DecidableEq, Repr

/-- eval.nativeBoolToBooleanObject: the singleton for a host boolean. -/
def nativeBoolToBooleanObject (b : Bool) : Nat := if b then TRUE else FALSE

/-- eval.isTruthy: pointer comparison against the singletons; anything
that is not the NULL or FALSE singleton (a nil Object included) counts
as truthy. -/
def isTruthy (r : Option Nat) : Bool :=
  if r = some NULL then false
  else if r = some TRUE then true
  else if r = some FALSE then false
  else true

/-- eval.isError: non-nil and of Error type. -/
def isError (st : EState) (r : Option Nat) : Bool :=
  match getOpt st r with
  | some o => typeOf o = ERROR_OBJ
  | none => false

/-- eval.newError: allocate an Error object carrying the message. -/
def newError (msg : String) (st : EState) : Outcome × EState :=
  let (ref, st₁) := allocObj (.errH msg) st
  (.ok (some ref), st₁)

/-- eval.evalBangOperatorExpression: pointer switch over the
singletons. -/
def evalBangOperatorExpression (r : Option Nat) : Option Nat :=
  if r = some TRUE then some FALSE
  else if r = some FALSE then some TRUE
  else if r = some NULL then some TRUE
  else some FALSE

/-- eval.evalNegOperatorExpression: an error for a non-Integer operand;
for an Integer operand the object is negated IN PLACE and the same
pointer is returned (lines 214 to 216 of the evaluator). -/
def evalNegOperatorExpression (r : Option Nat) (st : EState) : Outcome × EState :=
  match r with
  | none => (.fault "invalid memory address or nil pointer dereference", st)
  | some ref =>
    match getObj st ref with
    | some (.intH v) => (.ok (some ref), setObj st ref (.intH (wrap64 (-v))))
    | some o => newError ("unknown operator: -" ++ typeOf o) st
    | none => (.fault "invalid object reference", st)

/-- eval.evalPrefixExpression. -/
def evalPrefixExpression (op : String) (r : Option Nat) (st : EState) : Outcome × EState :=
  if op = "!" then (.ok (evalBangOperatorExpression r), st)
  else if op = "-" then evalNegOperatorExpression r st
  else (.ok (some NULL), st)

/-- eval.evalIntegerInfixExpression on the two Integer values: wrapping
signed 64-bit arithmetic, with the quotient truncated toward zero.  A
zero divisor is an unguarded Go division, a runtime panic. -/
def evalIntegerInfixExpression (lv : Int) (op : String) (rv : Int) (st : EState) :
    Outcome × EState :=
  if op = "+" then
    let (ref, st₁) := allocObj (.intH (wrap64 (lv + rv))) st
    (.ok (some ref), st₁)
  else if op = "-" then
    let (ref, st₁) := allocObj (.intH (wrap64 (lv - rv))) st
    (.ok (some ref), st₁)
  else if op = "*" then
    let (ref, st₁) := allocObj (.intH (wrap64 (lv * rv))) st
    (.ok (some ref), st₁)
  else if op = "/" then
    if rv = 0 then (.fault "runtime error: integer divide by zero", st)
    else
      let (ref, st₁) := allocObj (.intH (wrap64 (Int.tdiv lv rv))) st
      (.ok (some ref), st₁)
  else if op = "<" then (.ok (some (nativeBoolToBooleanObject (decide (lv < rv)))), st)
  else if op = ">" then (.ok (some (nativeBoolToBooleanObject (decide (rv < lv)))), st)
  else if op = "==" then (.ok (some (nativeBoolToBooleanObject (decide (lv = rv)))), st)
  else if op = "!=" then (.ok (some (nativeBoolToBooleanObject (!decide (lv = rv)))), st)
  else newError ("unknown operator: " ++ INTEGER_OBJ ++ " " ++ op ++ " " ++ INTEGER_OBJ) st

/-- eval.evalBooleanInfixExpression: identity (pointer) comparison of
the two boolean objects. -/
def evalBooleanInfixExpression (lref : Nat) (op : String) (rref : Nat) (st : EState) :
    Outcome × EState :=
  if op = "==" then (.ok (some (nativeBoolToBooleanObject (decide (lref = rref)))), st)
  else if op = "!=" then (.ok (some (nativeBoolToBooleanObject (!decide (lref = rref)))), st)
  else newError ("unknown operator: " ++ BOOLEAN_OBJ ++ " " ++ op ++ " " ++ BOOLEAN_OBJ) st

/-- eval.evalInfixExpression: dispatch on the operand types; mismatched
types give a type mismatch error, any other combination an unknown
operator error. -/
def evalInfixExpression (l : Option Nat) (op : String) (r : Option Nat) (st : EState) :
    Outcome × EState :=
  match l with
  | none => (.fault "invalid memory address or nil pointer dereference", st)
  | some lref =>
    match getObj st lref with
    | none => (.fault "invalid object reference", st)
    | some lo =>
      match r with
      | none => (.fault "invalid memory address or nil pointer dereference", st)
      | some rref =>
        match getObj st rref with
        | none => (.fault "invalid object reference", st)
        | some ro =>
          match lo, ro with
          | .intH lv, .intH rv => evalIntegerInfixExpression lv op rv st
          | .boolH _, .boolH _ => evalBooleanInfixExpression lref op rref st
          | _, _ =>
            if typeOf lo ≠ typeOf ro then
              newError ("type mismatch: " ++ typeOf lo ++ " " ++ op ++ " " ++ typeOf ro) st
            else
              newError ("unknown operator: " ++ typeOf lo ++ " " ++ op ++ " " ++ typeOf ro) st

/-- eval.evalIdentifier: search the chain, innermost first. -/
def evalIdentifier (name : String) (e : Nat) (st : EState) : Outcome × EState :=
  match envGet st.envs.length st e name with
  | some v => (.ok v, st)
  | none => newError ("identifier not found: " ++ name) st

/-!
The mutually recursive part of the evaluator (eval.Eval and the
procedures it calls that recurse back into Eval), packed into a single
fuel-indexed function, as for the parser.  The type switch of Eval is
split over the node sorts: exprT and stmtT are the expression and
statement branches of Eval, optExprT is Eval on a possibly nil node (a
nil node falls through every case of the type switch, giving nil), and
progT and blockT carry the running result of the loops of evalProgram
and evalBlockStatement.
-/

/-- Tasks: the mutually recursive evaluator procedures. -/
inductive ETask where
  | exprT (ex : Expr) (e : Nat)
  | optExprT (oe : Option Expr) (e : Nat)
  | stmtT (s : Stmt) (e : Nat)
  | progT (ss : List (Option Stmt)) (res : Option Nat) (e : Nat)
  | blockT (ss : List (Option Stmt)) (res : Option Nat) (e : Nat)
  | ifT (cond : Option Expr) (conseq : List (Option Stmt))
      (alt : Option (List (Option Stmt))) (e : Nat)
  | callT (fn : Option Expr) (args : Option (List (Option Expr))) (e : Nat)
  | argsT (args : List (Option Expr)) (ps : List String) (e : Nat) (ne : Nat)

/-- The packed evaluator.  Branch by branch it mirrors the evaluator
source; every recursive call decrements the fuel by one. -/
def evalF : Nat → ETask → EState → Outcome × EState
  | 0, _, st => (.fault "out of fuel", st)
  | fuel + 1, .exprT ex e, st =>
    match ex with
    | .identE name => evalIdentifier name e st
    | .intE v =>
      let (ref, st₁) := allocObj (.intH v) st
      (.ok (some ref), st₁)
    | .boolE b => (.ok (some (nativeBoolToBooleanObject b)), st)
    | .fnE ps body =>
      let (ref, st₁) := allocObj (.funH ps body e) st
      (.ok (some ref), st₁)
    | .prefixE op rex =>
      match evalF fuel (.optExprT rex e) st with
      | (.fault m, st₁) => (.fault m, st₁)
      | (.ok r, st₁) =>
        if isError st₁ r then (.ok r, st₁) else evalPrefixExpression op r st₁
    | .infixE op lex rex =>
      match evalF fuel (.optExprT lex e) st with
      | (.fault m, st₁) => (.fault m, st₁)
      | (.ok l, st₁) =>
        if isError st₁ l then (.ok l, st₁)
        else
          match evalF fuel (.optExprT rex e) st₁ with
          | (.fault m, st₂) => (.fault m, st₂)
          | (.ok r, st₂) =>
            if isError st₂ r then (.ok r, st₂) else evalInfixExpression l op r st₂
    | .ifE c cq alt => evalF fuel (.ifT c cq alt e) st
    | .callE f args => evalF fuel (.callT f args e) st
  | fuel + 1, .optExprT oe e, st =>
    match oe with
    | none => (.ok none, st)
    | some ex => evalF fuel (.exprT ex e) st
  | fuel + 1, .stmtT s e, st =>
    match s with
    | .exprS oe => evalF fuel (.optExprT oe e) st
    | .returnS oe =>
      match evalF fuel (.optExprT oe e) st with
      | (.fault m, st₁) => (.fault m, st₁)
      | (.ok r, st₁) =>
        if isError st₁ r then (.ok r, st₁)
        else
          let (ref, st₂) := allocObj (.retH r) st₁
          (.ok (some ref), st₂)
    | .letS name oe =>
      match evalF fuel (.optExprT oe e) st with
      | (.fault m, st₁) => (.fault m, st₁)
      | (.ok r, st₁) =>
        if isError st₁ r then (.ok r, st₁)
        else (.ok none, envSet st₁ e name r)
  | fuel + 1, .progT ss res e, st =>
    -- the loop of evalProgram: a ReturnValue is unwrapped and returned,
    -- an Error is returned as is, anything else becomes the running
    -- result; the running result is answered after the last statement.
    match ss with
    | [] => (.ok res, st)
    | none :: _ => (.fault "invalid memory address or nil pointer dereference", st)
    | some s :: rest =>
      match evalF fuel (.stmtT s e) st with
      | (.fault m, st₁) => (.fault m, st₁)
      | (.ok r, st₁) =>
        match getOpt st₁ r with
        | some (.retH v) => (.ok v, st₁)
        | some (.errH _) => (.ok r, st₁)
        | _ => evalF fuel (.progT rest r e) st₁
  | fuel + 1, .blockT ss res e, st =>
    -- the loop of evalBlockStatement: as for evalProgram, except that a
    -- ReturnValue is returned still wrapped.
    match ss with
    | [] => (.ok res, st)
    | none :: _ => (.fault "invalid memory address or nil pointer dereference", st)
    | some s :: rest =>
      match evalF fuel (.stmtT s e) st with
      | (.fault m, st₁) => (.fault m, st₁)
      | (.ok r, st₁) =>
        match getOpt st₁ r with
        | some (.retH _) => (.ok r, st₁)
        | some (.errH _) => (.ok r, st₁)
        | _ => evalF fuel (.blockT rest r e) st₁
  | fuel + 1, .ifT c cq alt e, st =>
    -- eval.evalIfExpression: no error check on the condition; an error
    -- condition is simply truthy.
    match evalF fuel (.optExprT c e) st with
    | (.fault m, st₁) => (.fault m, st₁)
    | (.ok r, st₁) =>
      if isTruthy r then evalF fuel (.blockT cq none e) st₁
      else
        match alt with
        | some ab => evalF fuel (.blockT ab none e) st₁
        | none => (.ok (some NULL), st₁)
  | fuel + 1, .callT f args e, st =>
    -- eval.evalCallExpression: callee, error check, Function check,
    -- arity check, then a fresh enclosed environment, the argument loop
    -- and the body, unwrapping a ReturnValue.
    match evalF fuel (.optExprT f e) st with
    | (.fault m, st₁) => (.fault m, st₁)
    | (.ok fr, st₁) =>
      if isError st₁ fr then (.ok fr, st₁)
      else
        match fr with
        | none => (.fault "invalid memory address or nil pointer dereference", st₁)
        | some fref =>
          match getObj st₁ fref with
          | none => (.fault "invalid object reference", st₁)
          | some (.funH ps body fenv) =>
            if (args.getD []).length ≠ (ps.getD []).length then
              newError ("Expected " ++ toString (ps.getD []).length ++
                " arguments. Got=" ++ toString (args.getD []).length) st₁
            else
              let (ne, st₂) := newEnclosedEnvironment st₁ fenv
              match evalF fuel (.argsT (args.getD []) (ps.getD []) e ne) st₂ with
              | (.fault m, st₃) => (.fault m, st₃)
              | (.ok (some errref), st₃) => (.ok (some errref), st₃)
              | (.ok none, st₃) =>
                match evalF fuel (.blockT body none ne) st₃ with
                | (.fault m, st₄) => (.fault m, st₄)
                | (.ok r, st₄) =>
                  match getOpt st₄ r with
                  | some (.retH v) => (.ok v, st₄)
                  | _ => (.ok r, st₄)
          | some o => newError ("not a function: " ++ typeOf o) st₁
  | fuel + 1, .argsT args ps e ne, st =>
    -- argument loop of evalCallExpression: evaluate in the caller
    -- environment e, return the first error, bind into ne; the ok none
    -- outcome signals that every argument was bound.
    match args, ps with
    | a :: args₂, pn :: ps₂ =>
      match evalF fuel (.optExprT a e) st with
      | (.fault m, st₁) => (.fault m, st₁)
      | (.ok r, st₁) =>
        if isError st₁ r then (.ok r, st₁)
        else evalF fuel (.argsT args₂ ps₂ e ne) (envSet st₁ ne pn r)
    | _, _ => (.ok none, st)

/-- Eval on an expression node, unpacked. -/
def evalExpr (fuel : Nat) (ex : Expr) (e : Nat) (st : EState) : Outcome × EState :=
  evalF fuel (.exprT ex e) st

/-- Eval on a possibly nil expression node, unpacked. -/
def evalOptExpr (fuel : Nat) (oe : Option Expr) (e : Nat) (st : EState) : Outcome × EState :=
  evalF fuel (.optExprT oe e) st

/-- Eval on a statement node, unpacked. -/
def evalStmt (fuel : Nat) (s : Stmt) (e : Nat) (st : EState) : Outcome × EState :=
  evalF fuel (.stmtT s e) st

/-- eval.evalProgram, unpacked (running result starts as the nil
Object). -/
def evalProgram (fuel : Nat) (ss : List (Option Stmt)) (e : Nat) (st : EState) : Outcome × EState :=
  evalF fuel (.progT ss none e) st

/-- eval.evalBlockStatement, unpacked. -/
def evalBlockStatement (fuel : Nat) (ss : List (Option Stmt)) (e : Nat) (st : EState) :
    Outcome × EState :=
  evalF fuel (.blockT ss none e) st

/-- eval.evalIfExpression, unpacked. -/
def evalIfExpression (fuel : Nat) (c : Option Expr) (cq : List (Option Stmt))
    (alt : Option (List (Option Stmt))) (e : Nat) (st : EState) : Outcome × EState :=
  evalF fuel (.ifT c cq alt e) st

/-- eval.evalCallExpression, unpacked. -/
def evalCallExpression (fuel : Nat) (f : Option Expr) (args : Option (List (Option Expr)))
    (e : Nat) (st : EState) : Outcome × EState :=
  evalF fuel (.callT f args e) st

/-- Run a program the way the driver does: Eval on the Program node
against a fresh global environment. -/
def runProgram (fuel : Nat) (prog : List (Option Stmt)) : Outcome × EState :=
  evalProgram fuel prog 0 initialState

/-!
Concrete inputs used by the theorems below.
-/

/-- Token stream of the program text: let x = 5 ; -/
def toksLet5 : List Token :=
  [⟨.LET, "let"⟩, ⟨.IDENT, "x"⟩, ⟨.ASSIGN, "="⟩, ⟨.INT, "5"⟩, ⟨.SEMICOLON, ";"⟩]

/-- Token stream of the program text: return 5 ; -/
def toksRet5 : List Token :=
  [⟨.RETURN, "return"⟩, ⟨.INT, "5"⟩, ⟨.SEMICOLON, ";"⟩]

/-- Token stream of the program text: let 5 ; 7 ; -/
def toksLetErr : List Token :=
  [⟨.LET, "let"⟩, ⟨.INT, "5"⟩, ⟨.SEMICOLON, ";"⟩, ⟨.INT, "7"⟩, ⟨.SEMICOLON, ";"⟩]

/-- Token stream of the program text: let 5 ; ( 6 ; -/
def toksTwoErr : List Token :=
  [⟨.LET, "let"⟩, ⟨.INT, "5"⟩, ⟨.SEMICOLON, ";"⟩, ⟨.LPAREN, "("⟩, ⟨.INT, "6"⟩, ⟨.SEMICOLON, ";"⟩]

/-- Token stream of the expression: a + b * c + d / e - f -/
def toksPrec : List Token :=
  [⟨.IDENT, "a"⟩, ⟨.PLUS, "+"⟩, ⟨.IDENT, "b"⟩, ⟨.ASTERISK, "*"⟩, ⟨.IDENT, "c"⟩,
   ⟨.PLUS, "+"⟩, ⟨.IDENT, "d"⟩, ⟨.SLASH, "/"⟩, ⟨.IDENT, "e"⟩,
   ⟨.MINUS, "-"⟩, ⟨.IDENT, "f"⟩]

/-- Token stream of the expression: a + b + c -/
def toksSum3 : List Token :=
  [⟨.IDENT, "a"⟩, ⟨.PLUS, "+"⟩, ⟨.IDENT, "b"⟩, ⟨.PLUS, "+"⟩, ⟨.IDENT, "c"⟩]

/-- The tree (((a + (b * c)) + (d / e)) - f). -/
def expectedPrec : Expr :=
  .infixE "-"
    (some (.infixE "+"
      (some (.infixE "+" (some (.identE "a"))
        (some (.infixE "*" (some (.identE "b")) (some (.identE "c"))))))
      (some (.infixE "/" (some (.identE "d")) (some (.identE "e"))))))
    (some (.identE "f"))

/-- The tree ((a + b) + c). -/
def expectedSum3 : Expr :=
  .infixE "+" (some (.infixE "+" (some (.identE "a")) (some (.identE "b"))))
    (some (.identE "c"))

/-- C1: the claim reads that parseLetStatement and parseReturnStatement
parse the value via parseExpression(LOWEST) and store it in the node.
The code instead skips every token up to the semicolon, leaving the
Value field nil: on the streams for let x = 5 ; and return 5 ; the
parser succeeds with no errors, yet the value fields of the resulting
nodes are empty; the literal 5 never reaches the tree. -/
theorem C1_let_return_value_never_parsed :
    parseProgram 50 (newParser toksLet5) = ([some (.letS "x" none)], ⟨toksLet5, 5, []⟩) ∧
    parseProgram 50 (newParser toksRet5) = ([some (.returnS none)], ⟨toksRet5, 3, []⟩) :=
  ⟨rfl, rfl⟩

/-- C7 counterexample: the message recorded for a failed token
expectation is capitalized, Expected ... Got ... instead, not the
claimed lowercase expected ... got ... instead.  On the stream for
let 5 ; 7 ; exactly one error is recorded and it differs from the
message the claim states. -/
theorem C7_message_capitalization_cex :
    (parseProgram 50 (newParser toksLetErr)).2.errors =
      ["Expected next token to be IDENT. Got INT instead"] ∧
    "Expected next token to be IDENT. Got INT instead" ≠
      "expected next token to be IDENT. got INT instead" :=
  ⟨rfl, by decide⟩

/-- C7 amended: parsing never aborts on the first error; expectPeek on a
mismatch appends exactly one message, reading Expected next token to be
K. Got A instead, and parsing continues.  On the stream let 5 ; ( 6 ;
both errors are accumulated in order and the statements after the first
error are still parsed; the failed let statement itself is appended as
a typed-nil statement (the stmt != nil guard of ParseProgram cannot
detect a typed-nil pointer inside the interface). -/
theorem C7_error_accumulation :
    (∀ p t, peekTokenIs t p = false →
      expectPeek t p =
        (false,
          ⟨p.toks, p.pos,
            p.errors ++
              ["Expected next token to be " ++ t.str ++ ". Got " ++
                (peekToken p).ttype.str ++ " instead"]⟩)) ∧
    (∀ p t, peekTokenIs t p = true → expectPeek t p = (true, nextToken p)) ∧
    (parseProgram 50 (newParser toksTwoErr)).1 =
      [none, some (.exprS (some (.intE 5))), some (.exprS none)] ∧
    (parseProgram 50 (newParser toksTwoErr)).2.errors =
      ["Expected next token to be IDENT. Got INT instead",
       "Expected next token to be ). Got ; instead"] := by
  refine ⟨?_, ?_, rfl, rfl⟩
  · intro p t h
    simp [expectPeek, h, peekError]
  · intro p t h
    simp [expectPeek, h]

/-- C7 witness: the first conjunct of the amended theorem at a concrete
state, the fresh parser over let 5 ; 7 ;, expecting IDENT and finding
INT. -/
theorem C7_error_accumulation_w :
    expectPeek .IDENT (newParser toksLetErr) =
      (false,
        ⟨toksLetErr, 0, ["Expected next token to be IDENT. Got INT instead"]⟩) :=
  C7_error_accumulation.1 (newParser toksLetErr) .IDENT rfl

/-- C8: the precedence levels are strictly increasing in the order
LOWEST, EQUALS, LESSGREATER, SUM, PRODUCT, PREFIX, CALL; the
precedences table assigns those levels to the infix token kinds; and
the stream a + b * c + d / e - f parses, without errors, to the tree
(((a + (b * c)) + (d / e)) - f), with a + b + c folding
left-associatively to ((a + b) + c). -/
theorem C8_precedence_left_assoc :
    LOWEST < EQUALS ∧ EQUALS < LESSGREATER ∧ LESSGREATER < SUM ∧
    SUM < PRODUCT ∧ PRODUCT < PREFIX ∧ PREFIX < CALL ∧
    precedences .EQ = some EQUALS ∧ precedences .NOT_EQ = some EQUALS ∧
    precedences .LT = some LESSGREATER ∧ precedences .GT = some LESSGREATER ∧
    precedences .PLUS = some SUM ∧ precedences .MINUS = some SUM ∧
    precedences .SLASH = some PRODUCT ∧ precedences .ASTERISK = some PRODUCT ∧
    precedences .LPAREN = some CALL ∧
    parseProgram 50 (newParser toksPrec) =
      ([some (.exprS (some expectedPrec))], ⟨toksPrec, 11, []⟩) ∧
    parseProgram 50 (newParser toksSum3) =
      ([some (.exprS (some expectedSum3))], ⟨toksSum3, 5, []⟩) :=
  ⟨by decide, by decide, by decide, by decide, by decide, by decide,
   rfl, rfl, rfl, rfl, rfl, rfl, rfl, rfl, rfl, rfl, rfl⟩

/-!
Concrete programs used by the evaluator theorems.
-/

/-- Program: let a = 5; -a; a; -/
def progNegShared : List (Option Stmt) :=
  [some (.letS "a" (some (.intE 5))),
   some (.exprS (some (.prefixE "-" (some (.identE "a"))))),
   some (.exprS (some (.identE "a")))]

/-- Program: 5 / 0; -/
def progDivZero : List (Option Stmt) :=
  [some (.exprS (some (.infixE "/" (some (.intE 5)) (some (.intE 0)))))]

/-- Program: 5 + true; 10; -/
def progTypeMismatch : List (Option Stmt) :=
  [some (.exprS (some (.infixE "+" (some (.intE 5)) (some (.boolE true))))),
   some (.exprS (some (.intE 10)))]

/-- Program: let f = fn(x) { x; }; f(); -/
def progArityZero : List (Option Stmt) :=
  [some (.letS "f" (some (.fnE (some ["x"]) [some (.exprS (some (.identE "x")))]))),
   some (.exprS (some (.callE (some (.identE "f")) (some []))))]

/-- Program: let f = fn(x, y) { x; }; f(boom); with boom unbound, so the
lone argument would evaluate to an error if it were evaluated. -/
def progArityErrArg : List (Option Stmt) :=
  [some (.letS "f" (some (.fnE (some ["x", "y"]) [some (.exprS (some (.identE "x")))]))),
   some (.exprS (some (.callE (some (.identE "f")) (some [some (.identE "boom")]))))]

/-- Program: if (0) { 10 } else { 20 } -/
def progIfZero : List (Option Stmt) :=
  [some (.exprS (some (.ifE (some (.intE 0)) [some (.exprS (some (.intE 10)))]
    (some [some (.exprS (some (.intE 20)))]))))]

/-- Program: if (false) { 10 } else { 20 } -/
def progIfFalse : List (Option Stmt) :=
  [some (.exprS (some (.ifE (some (.boolE false)) [some (.exprS (some (.intE 10)))]
    (some [some (.exprS (some (.intE 20)))]))))]

/-- Program: if (true) { 10 } else { 20 } -/
def progIfTrue : List (Option Stmt) :=
  [some (.exprS (some (.ifE (some (.boolE true)) [some (.exprS (some (.intE 10)))]
    (some [some (.exprS (some (.intE 20)))]))))]

/-- Program: if (false) { 10 } -/
def progIfNoAlt : List (Option Stmt) :=
  [some (.exprS (some (.ifE (some (.boolE false)) [some (.exprS (some (.intE 10)))] none)))]

/-- Program: let g = 1; let f = fn(x) { x; };
f(if (true) { let g = 99; 2 }); g; -/
def progGlobalMut : List (Option Stmt) :=
  [some (.letS "g" (some (.intE 1))),
   some (.letS "f" (some (.fnE (some ["x"]) [some (.exprS (some (.identE "x")))]))),
   some (.exprS (some (.callE (some (.identE "f"))
     (some [some (.ifE (some (.boolE true))
       [some (.letS "g" (some (.intE 99))), some (.exprS (some (.intE 2)))] none)])))),
   some (.exprS (some (.identE "g")))]

/-- Program: let g = 1; let f = fn(x) { x; }; g; (progGlobalMut without
the call statement). -/
def progGlobalMutNoCall : List (Option Stmt) :=
  [some (.letS "g" (some (.intE 1))),
   some (.letS "f" (some (.fnE (some ["x"]) [some (.exprS (some (.identE "x")))]))),
   some (.exprS (some (.identE "g")))]

/-- C2: the claim reads that prefix minus returns a new Integer and
leaves the operand unchanged.  The code instead negates the operand in
place and returns the same pointer: for any Integer object, the result
pointer equals the operand pointer and the pointed-to object now holds
the negated value; a non-Integer operand gives the unknown operator
error as claimed.  Running let a = 5; -a; a; ends with a bound to the
same object, now holding -5, and no second Integer on the heap. -/
theorem C2_neg_mutates_operand :
    (∀ st ref v, getObj st ref = some (.intH v) →
      evalNegOperatorExpression (some ref) st =
        (.ok (some ref), setObj st ref (.intH (wrap64 (-v))))) ∧
    (∀ st ref o, getObj st ref = some o → typeOf o ≠ INTEGER_OBJ →
      evalNegOperatorExpression (some ref) st =
        newError ("unknown operator: -" ++ typeOf o) st) ∧
    runProgram 50 progNegShared =
      (.ok (some 3),
       ⟨[.nullH, .boolH true, .boolH false, .intH (-5)],
        [⟨[("a", some 3)], none⟩]⟩) := by
  refine ⟨?_, ?_, rfl⟩
  · intro st ref v h
    simp [evalNegOperatorExpression, h]
  · intro st ref o h₁ h₂
    cases o <;>
      simp [evalNegOperatorExpression, h₁, typeOf, INTEGER_OBJ] at h₂ ⊢

/-- C2 witness: the mutation conjunct at a concrete heap holding the
Integer 5 at pointer 3. -/
theorem C2_neg_mutates_operand_w :
    evalNegOperatorExpression (some 3)
        ⟨[.nullH, .boolH true, .boolH false, .intH 5], [⟨[], none⟩]⟩ =
      (.ok (some 3),
       ⟨[.nullH, .boolH true, .boolH false, .intH (-5)], [⟨[], none⟩]⟩) := by
  have h := C2_neg_mutates_operand.1
    ⟨[.nullH, .boolH true, .boolH false, .intH 5], [⟨[], none⟩]⟩ 3 5 rfl
  simpa [setObj, wrap64] using h

/-- C3: infix + - * / on two Integers is wrapping signed 64-bit
arithmetic with the quotient truncated toward zero, as claimed; but a
zero divisor is not guarded: the division is a host-level fault (a Go
runtime panic), not a DivisionByZero Error object, so 5 / 0; faults. -/
theorem C3_int_arith_div_zero_faults :
    (∀ lv rv st, evalIntegerInfixExpression lv "+" rv st =
      (.ok (some st.objs.length), ⟨st.objs ++ [.intH (wrap64 (lv + rv))], st.envs⟩)) ∧
    (∀ lv rv st, evalIntegerInfixExpression lv "-" rv st =
      (.ok (some st.objs.length), ⟨st.objs ++ [.intH (wrap64 (lv - rv))], st.envs⟩)) ∧
    (∀ lv rv st, evalIntegerInfixExpression lv "*" rv st =
      (.ok (some st.objs.length), ⟨st.objs ++ [.intH (wrap64 (lv * rv))], st.envs⟩)) ∧
    (∀ lv rv st, rv ≠ 0 → evalIntegerInfixExpression lv "/" rv st =
      (.ok (some st.objs.length),
       ⟨st.objs ++ [.intH (wrap64 (Int.tdiv lv rv))], st.envs⟩)) ∧
    (∀ lv st, evalIntegerInfixExpression lv "/" 0 st =
      (.fault "runtime error: integer divide by zero", st)) ∧
    runProgram 50 progDivZero =
      (.fault "runtime error: integer divide by zero",
       ⟨[.nullH, .boolH true, .boolH false, .intH 5, .intH 0], [⟨[], none⟩]⟩) := by
  refine ⟨?_, ?_, ?_, ?_, ?_, rfl⟩
  · intro lv rv st; rfl
  · intro lv rv st; rfl
  · intro lv rv st; rfl
  · intro lv rv st h
    simp [evalIntegerInfixExpression, allocObj, h]
  · intro lv st; rfl

/-- C3 witness: the truncating division conjunct at -7 and 2, whose
truncated quotient is -3. -/
theorem C3_int_arith_div_zero_faults_w :
    evalIntegerInfixExpression (-7) "/" 2
        ⟨[.nullH, .boolH true, .boolH false], [⟨[], none⟩]⟩ =
      (.ok (some 3),
       ⟨[.nullH, .boolH true, .boolH false, .intH (-3)], [⟨[], none⟩]⟩) := by
  have h := C3_int_arith_div_zero_faults.2.2.2.1 (-7) 2
    ⟨[.nullH, .boolH true, .boolH false], [⟨[], none⟩]⟩ (by decide)
  simpa [wrap64] using h

/-- C5: in the loops of evalProgram and evalBlockStatement, once a
statement evaluates to an Error object the loop stops at once: the very
pair (error pointer, state) the statement produced is the result, for
every possible tail of remaining statements, so no later statement is
evaluated and the error is not modified.  Running 5 + true; 10; gives
the type mismatch error, and the 10 of the second statement was never
allocated. -/
theorem C5_error_short_circuit :
    (∀ fuel s ss res e st r st₁ m,
      evalStmt fuel s e st = (.ok (some r), st₁) →
      getObj st₁ r = some (.errH m) →
      evalF (fuel + 1) (.progT (some s :: ss) res e) st = (.ok (some r), st₁)) ∧
    (∀ fuel s ss res e st r st₁ m,
      evalStmt fuel s e st = (.ok (some r), st₁) →
      getObj st₁ r = some (.errH m) →
      evalF (fuel + 1) (.blockT (some s :: ss) res e) st = (.ok (some r), st₁)) ∧
    runProgram 50 progTypeMismatch =
      (.ok (some 4),
       ⟨[.nullH, .boolH true, .boolH false, .intH 5,
         .errH "type mismatch: INTEGER + BOOLEAN"],
        [⟨[], none⟩]⟩) := by
  refine ⟨?_, ?_, rfl⟩
  · intro fuel s ss res e st r st₁ m h₁ h₂
    have h₁a : evalF fuel (.stmtT s e) st = (.ok (some r), st₁) := h₁
    simp only [evalF, h₁a, getOpt, h₂]
  · intro fuel s ss res e st r st₁ m h₁ h₂
    have h₁a : evalF fuel (.stmtT s e) st = (.ok (some r), st₁) := h₁
    simp only [evalF, h₁a, getOpt, h₂]

/-- C5 witness: the program conjunct applied where the first statement
is 5 + true (which evaluates to the type mismatch error) and an
arbitrary concrete tail 10; follows. -/
theorem C5_error_short_circuit_w :
    evalF 50 (.progT progTypeMismatch none 0) initialState =
      (.ok (some 4),
       ⟨[.nullH, .boolH true, .boolH false, .intH 5,
         .errH "type mismatch: INTEGER + BOOLEAN"],
        [⟨[], none⟩]⟩) := by
  exact C5_error_short_circuit.1 49
    (.exprS (some (.infixE "+" (some (.intE 5)) (some (.boolE true)))))
    [some (.exprS (some (.intE 10)))] none 0 initialState 4
    ⟨[.nullH, .boolH true, .boolH false, .intH 5,
      .errH "type mismatch: INTEGER + BOOLEAN"], [⟨[], none⟩]⟩
    "type mismatch: INTEGER + BOOLEAN" rfl rfl

/-- C6: the condition is evaluated first; a truthy value selects the
consequence block, a falsy one the alternative when present and the
NULL singleton otherwise.  isTruthy holds exactly away from the NULL
and FALSE singleton pointers (so the Integer 0, a freshly allocated
object, is truthy, as the run of if (0) { 10 } else { 20 } shows
end to end). -/
theorem C6_if_condition_truthiness :
    (∀ r, isTruthy r = true ↔ (r ≠ some NULL ∧ r ≠ some FALSE)) ∧
    (∀ fuel c cq alt e st r st₁,
      evalOptExpr fuel c e st = (.ok r, st₁) → isTruthy r = true →
      evalIfExpression (fuel + 1) c cq alt e st = evalBlockStatement fuel cq e st₁) ∧
    (∀ fuel c cq ab e st r st₁,
      evalOptExpr fuel c e st = (.ok r, st₁) → isTruthy r = false →
      evalIfExpression (fuel + 1) c cq (some ab) e st = evalBlockStatement fuel ab e st₁) ∧
    (∀ fuel c cq e st r st₁,
      evalOptExpr fuel c e st = (.ok r, st₁) → isTruthy r = false →
      evalIfExpression (fuel + 1) c cq none e st = (.ok (some NULL), st₁)) ∧
    runProgram 50 progIfZero =
      (.ok (some 4),
       ⟨[.nullH, .boolH true, .boolH false, .intH 0, .intH 10], [⟨[], none⟩]⟩) ∧
    runProgram 50 progIfFalse =
      (.ok (some 3),
       ⟨[.nullH, .boolH true, .boolH false, .intH 20], [⟨[], none⟩]⟩) ∧
    runProgram 50 progIfTrue =
      (.ok (some 3),
       ⟨[.nullH, .boolH true, .boolH false, .intH 10], [⟨[], none⟩]⟩) ∧
    runProgram 50 progIfNoAlt =
      (.ok (some NULL),
       ⟨[.nullH, .boolH true, .boolH false], [⟨[], none⟩]⟩) := by
  refine ⟨?_, ?_, ?_, ?_, rfl, rfl, rfl, rfl⟩
  · intro r
    simp only [isTruthy]
    split_ifs with h₁ h₂ h₃ <;> simp_all [NULL, TRUE, FALSE]
  · intro fuel c cq alt e st r st₁ h₁ h₂
    have h₁a : evalF fuel (.optExprT c e) st = (.ok r, st₁) := h₁
    simp only [evalIfExpression, evalBlockStatement, evalF, h₁a, h₂, if_true]
  · intro fuel c cq ab e st r st₁ h₁ h₂
    have h₁a : evalF fuel (.optExprT c e) st = (.ok r, st₁) := h₁
    simp only [evalIfExpression, evalBlockStatement, evalF, h₁a, h₂,
      Bool.false_eq_true, if_false]
  · intro fuel c cq e st r st₁ h₁ h₂
    have h₁a : evalF fuel (.optExprT c e) st = (.ok r, st₁) := h₁
    simp only [evalIfExpression, evalF, h₁a, h₂, Bool.false_eq_true, if_false]

/-- C6 witness: the truthy dispatch conjunct where the condition is the
Integer literal 0, whose value is truthy. -/
theorem C6_if_condition_truthiness_w :
    evalIfExpression 4 (some (.intE 0)) [some (.exprS (some (.intE 10)))]
        (some [some (.exprS (some (.intE 20)))]) 0 initialState =
      evalBlockStatement 3 [some (.exprS (some (.intE 10)))] 0
        ⟨[.nullH, .boolH true, .boolH false, .intH 0], [⟨[], none⟩]⟩ := by
  exact C6_if_condition_truthiness.2.1 3 (some (.intE 0))
    [some (.exprS (some (.intE 10)))] (some [some (.exprS (some (.intE 20)))]) 0 initialState
    (some 3) ⟨[.nullH, .boolH true, .boolH false, .intH 0], [⟨[], none⟩]⟩ rfl rfl

/-- Shared lemma: in evalCallExpression, when the callee evaluates to a
Function object and the argument count differs from the parameter
count, the result is exactly the state after the callee evaluation plus
one allocated Error object carrying the arity message: no enclosed
environment is created, no argument is evaluated and the body is not
entered. -/
theorem evalCall_arity_mismatch (fuel : Nat) (f : Option Expr)
    (args : Option (List (Option Expr))) (e : Nat) (st st₁ : EState) (fref : Nat)
    (ps : Option (List String)) (body : List (Option Stmt)) (fenv : Nat)
    (hf : evalOptExpr fuel f e st = (.ok (some fref), st₁))
    (hobj : getObj st₁ fref = some (.funH ps body fenv))
    (hlen : (args.getD []).length ≠ (ps.getD []).length) :
    evalCallExpression (fuel + 1) f args e st =
      (.ok (some st₁.objs.length),
       ⟨st₁.objs ++
          [.errH ("Expected " ++ toString (ps.getD []).length ++
            " arguments. Got=" ++ toString (args.getD []).length)],
        st₁.envs⟩) := by
  have hfa : evalF fuel (.optExprT f e) st = (.ok (some fref), st₁) := hf
  have hErr : isError st₁ (some fref) = false := by
    simp [isError, getOpt, hobj, typeOf, FUNCTION_OBJ, ERROR_OBJ]
  simp only [evalCallExpression, evalF, hfa, hErr, Bool.false_eq_true, if_false,
    hobj, newError, allocObj]
  rw [if_pos hlen]

/-- C4 counterexample: the arity error message is capitalized, Expected
n arguments. Got=m, not the claimed lowercase expected n arguments.
got=m: running let f = fn(x) { x; }; f(); produces the capitalized
message, which differs from the message the claim states. -/
theorem C4_message_capitalization_cex :
    runProgram 50 progArityZero =
      (.ok (some 4),
       ⟨[.nullH, .boolH true, .boolH false,
         .funH (some ["x"]) [some (.exprS (some (.identE "x")))] 0,
         .errH "Expected 1 arguments. Got=0"],
        [⟨[("f", some 3)], none⟩]⟩) ∧
    "Expected 1 arguments. Got=0" ≠ "expected 1 arguments. got=0" :=
  ⟨rfl, by decide⟩

/-- C4 amended: when the callee evaluates to a Function and the argument
count differs from the parameter count, the call returns an Error whose
message is Expected n arguments. Got=m (n the parameter count, m the
argument count; capitalized, unlike the claimed message), and no part
of the body is evaluated: the state is exactly the post-callee state
plus the one Error object. -/
theorem C4_arity_error_message (fuel : Nat) (f : Option Expr)
    (args : Option (List (Option Expr))) (e : Nat) (st st₁ : EState) (fref : Nat)
    (ps : Option (List String)) (body : List (Option Stmt)) (fenv : Nat)
    (hf : evalOptExpr fuel f e st = (.ok (some fref), st₁))
    (hobj : getObj st₁ fref = some (.funH ps body fenv))
    (hlen : (args.getD []).length ≠ (ps.getD []).length) :
    evalCallExpression (fuel + 1) f args e st =
      (.ok (some st₁.objs.length),
       ⟨st₁.objs ++
          [.errH ("Expected " ++ toString (ps.getD []).length ++
            " arguments. Got=" ++ toString (args.getD []).length)],
        st₁.envs⟩) :=
  evalCall_arity_mismatch fuel f args e st st₁ fref ps body fenv hf hobj hlen

/-- C4 witness: the amended theorem at a concrete call of a one-parameter
function literal with an empty argument list. -/
theorem C4_arity_error_message_w :
    evalCallExpression 3 (some (.fnE (some ["x"]) [some (.exprS (some (.identE "x")))]))
        (some []) 0 initialState =
      (.ok (some 4),
       ⟨[.nullH, .boolH true, .boolH false,
         .funH (some ["x"]) [some (.exprS (some (.identE "x")))] 0,
         .errH "Expected 1 arguments. Got=0"],
        [⟨[], none⟩]⟩) := by
  exact C4_arity_error_message 2
    (some (.fnE (some ["x"]) [some (.exprS (some (.identE "x")))]))
    (some []) 0 initialState
    ⟨[.nullH, .boolH true, .boolH false,
      .funH (some ["x"]) [some (.exprS (some (.identE "x")))] 0], [⟨[], none⟩]⟩
    3 (some ["x"]) [some (.exprS (some (.identE "x")))] 0 rfl rfl (by decide)

/-- C9: the arity check comes before the argument loop: when the callee
evaluates to a Function and the counts differ, the environment heap is
left exactly as it was (the caller environment gains no binding and no
enclosed environment is created) and the object heap gains only the
Error object, whatever the argument expressions are; in particular
running let f = fn(x, y) { x; }; f(boom); with boom unbound answers
the arity error, not the unbound identifier error boom would raise. -/
theorem C9_arity_checked_before_args :
    (∀ fuel f args e st st₁ fref ps body fenv,
      evalOptExpr fuel f e st = (.ok (some fref), st₁) →
      getObj st₁ fref = some (.funH ps body fenv) →
      (args.getD ([] : List (Option Expr))).length ≠ (ps.getD []).length →
      (evalCallExpression (fuel + 1) f args e st).2.envs = st₁.envs ∧
      (evalCallExpression (fuel + 1) f args e st).2.objs =
        st₁.objs ++
          [.errH ("Expected " ++ toString (ps.getD []).length ++
            " arguments. Got=" ++ toString (args.getD []).length)] ∧
      (evalCallExpression (fuel + 1) f args e st).1 = .ok (some st₁.objs.length)) ∧
    runProgram 50 progArityErrArg =
      (.ok (some 4),
       ⟨[.nullH, .boolH true, .boolH false,
         .funH (some ["x", "y"]) [some (.exprS (some (.identE "x")))] 0,
         .errH "Expected 2 arguments. Got=1"],
        [⟨[("f", some 3)], none⟩]⟩) := by
  refine ⟨?_, rfl⟩
  intro fuel f args e st st₁ fref ps body fenv hf hobj hlen
  rw [evalCall_arity_mismatch fuel f args e st st₁ fref ps body fenv hf hobj hlen]
  exact ⟨rfl, rfl, rfl⟩

/-- C9 witness: the general conjunct at a concrete two-parameter
function called with one argument that would itself fail to evaluate
(an unbound identifier). -/
theorem C9_arity_checked_before_args_w :
    (evalCallExpression 3
        (some (.fnE (some ["x", "y"]) [some (.exprS (some (.identE "x")))]))
        (some [some (.identE "boom")]) 0 initialState).2.envs = [⟨[], none⟩] := by
  have h := C9_arity_checked_before_args.1 2
    (some (.fnE (some ["x", "y"]) [some (.exprS (some (.identE "x")))]))
    (some [some (.identE "boom")]) 0 initialState
    ⟨[.nullH, .boolH true, .boolH false,
      .funH (some ["x", "y"]) [some (.exprS (some (.identE "x")))] 0], [⟨[], none⟩]⟩
    3 (some ["x", "y"]) [some (.exprS (some (.identE "x")))] 0 rfl rfl (by decide)
  exact h.1

/-!
Frame machinery for the environment heap: evaluation at environment e
never changes a pre-existing environment other than e (and, for the
argument loop, the enclosed environment ne being filled).  This is the
general lemma behind C10.
-/

theorem listGetSetNe {α : Type} (l : List α) (i j : Nat) (a : α) (h : i ≠ j) :
    (l.set i a).get? j = l.get? j := by
  induction l generalizing i j with
  | nil => rfl
  | cons x xs ih =>
    cases i with
    | zero =>
      cases j with
      | zero => exact absurd rfl h
      | succ j => rfl
    | succ i =>
      cases j with
      | zero => rfl
      | succ j => simpa using ih i j (by omega)

theorem listGetAppendLt {α : Type} (l l₂ : List α) (i : Nat) (h : i < l.length) :
    (l ++ l₂).get? i = l.get? i := by
  induction l generalizing i with
  | nil => exact absurd h (by simp)
  | cons x xs ih =>
    cases i with
    | zero => rfl
    | succ i => simpa using ih i (by simpa using h)

/-- Frame relation on the environment heap: the heap only grows, and
every pre-existing environment whose index is not in the excluded list
is untouched. -/
def envsFrame (ex : List Nat) (st st₁ : EState) : Prop :=
  st.envs.length ≤ st₁.envs.length ∧
  ∀ i, i < st.envs.length → i ∉ ex → st₁.envs.get? i = st.envs.get? i

theorem envsFrame_refl (ex : List Nat) (st : EState) : envsFrame ex st st :=
  ⟨le_refl _, fun _ _ _ => rfl⟩

theorem envsFrame_of_eq {ex : List Nat} {st st₁ : EState} (h : st₁.envs = st.envs) :
    envsFrame ex st st₁ :=
  ⟨by rw [h], fun i _ _ => by rw [h]⟩

theorem envsFrame_trans {ex : List Nat} {st₁ st₂ st₃ : EState}
    (h₁ : envsFrame ex st₁ st₂) (h₂ : envsFrame ex st₂ st₃) : envsFrame ex st₁ st₃ :=
  ⟨le_trans h₁.1 h₂.1, fun i hi hm => by
    rw [h₂.2 i (lt_of_lt_of_le hi h₁.1) hm, h₁.2 i hi hm]⟩

theorem envsFrame_mono {ex ex₁ : List Nat} {st st₁ : EState}
    (h : envsFrame ex st st₁) (hsub : ∀ i, i ∈ ex → i ∈ ex₁) : envsFrame ex₁ st st₁ :=
  ⟨h.1, fun i hi hm => h.2 i hi (fun hin => hm (hsub i hin))⟩

/-- Environment.Set only rewrites the store at the designated index. -/
theorem envSet_frame (st : EState) (e : Nat) (n : String) (v : Option Nat)
    (ex : List Nat) (he : e ∈ ex) : envsFrame ex st (envSet st e n v) := by
  unfold envSet
  cases h : st.envs.get? e with
  | none => exact envsFrame_refl _ _
  | some sc =>
    refine ⟨le_of_eq (by simp), ?_⟩
    intro i hi hm
    exact listGetSetNe _ e i _ (fun hh => hm (hh ▸ he))

/-- NewEnclosedEnvironment appends a fresh environment, touching no
existing one. -/
theorem newEnclosed_frame (st : EState) (o : Nat) (ex : List Nat) :
    envsFrame ex st (newEnclosedEnvironment st o).2 := by
  refine ⟨by simp [newEnclosedEnvironment], ?_⟩
  intro i hi hm
  exact listGetAppendLt _ _ i hi

theorem newEnclosed_len (st : EState) (o : Nat) :
    (newEnclosedEnvironment st o).2.envs.length = st.envs.length + 1 := by
  simp [newEnclosedEnvironment]

/-- The helpers of the evaluator that do not recurse never touch the
environment heap at all. -/
theorem newError_envs (msg : String) (st : EState) : (newError msg st).2.envs = st.envs := rfl

theorem evalIdentifier_envs (n : String) (e : Nat) (st : EState) :
    (evalIdentifier n e st).2.envs = st.envs := by
  unfold evalIdentifier
  split <;> rfl

theorem evalNeg_envs (r : Option Nat) (st : EState) :
    (evalNegOperatorExpression r st).2.envs = st.envs := by
  unfold evalNegOperatorExpression
  cases r with
  | none => rfl
  | some ref =>
    cases h : getObj st ref with
    | none => simp [h]
    | some o => cases o <;> simp [h, newError, allocObj, setObj]

theorem evalPrefix_envs (op : String) (r : Option Nat) (st : EState) :
    (evalPrefixExpression op r st).2.envs = st.envs := by
  unfold evalPrefixExpression
  split_ifs with h₁ h₂
  · rfl
  · exact evalNeg_envs r st
  · rfl

theorem evalIntegerInfix_envs (lv : Int) (op : String) (rv : Int) (st : EState) :
    (evalIntegerInfixExpression lv op rv st).2.envs = st.envs := by
  unfold evalIntegerInfixExpression
  split_ifs <;> rfl

theorem evalBooleanInfix_envs (lref : Nat) (op : String) (rref : Nat) (st : EState) :
    (evalBooleanInfixExpression lref op rref st).2.envs = st.envs := by
  unfold evalBooleanInfixExpression
  split_ifs <;> rfl

theorem evalInfix_envs (l : Option Nat) (op : String) (r : Option Nat) (st : EState) :
    (evalInfixExpression l op r st).2.envs = st.envs := by
  unfold evalInfixExpression
  cases l with
  | none => rfl
  | some lref =>
    cases h₁ : getObj st lref with
    | none => simp [h₁]
    | some lo =>
      cases r with
      | none => simp [h₁]
      | some rref =>
        cases h₂ : getObj st rref with
        | none => simp [h₁, h₂]
        | some ro =>
          cases lo <;> cases ro <;>
            simp [h₁, h₂, evalIntegerInfix_envs, evalBooleanInfix_envs,
              newError, allocObj] <;>
            split_ifs <;> simp [newError, allocObj]

/-- Environment indices a task may write to: its own environment, plus
the enclosed environment being filled for the argument loop. -/
def touched : ETask → List Nat
  | .exprT _ e => [e]
  | .optExprT _ e => [e]
  | .stmtT _ e => [e]
  | .progT _ _ e => [e]
  | .blockT _ _ e => [e]
  | .ifT _ _ _ e => [e]
  | .callT _ _ e => [e]
  | .argsT _ _ e ne => [e, ne]

/-- The master frame theorem: an evaluation step only writes to the
environments its task touches; every other pre-existing environment is
preserved (new ones may be appended). -/
theorem evalF_frame : ∀ (fuel : Nat) (t : ETask) (st : EState),
    envsFrame (touched t) st (evalF fuel t st).2 := by
  intro fuel
  induction fuel with
  | zero => intro t st; exact envsFrame_refl _ _
  | succ fuel ih =>
    intro t st
    cases t with
    | exprT ex e =>
      cases ex with
      | identE n => exact envsFrame_of_eq (evalIdentifier_envs n e st)
      | intE v => exact envsFrame_of_eq rfl
      | boolE b => exact envsFrame_of_eq rfl
      | fnE ps body => exact envsFrame_of_eq rfl
      | ifE c cq alt => exact ih (.ifT c cq alt e) st
      | callE f args => exact ih (.callT f args e) st
      | prefixE op rex =>
        have f₁ := ih (.optExprT rex e) st
        rcases h₁ : evalF fuel (.optExprT rex e) st with ⟨o₁, st₁⟩
        rw [h₁] at f₁
        show envsFrame [e] st (evalF (fuel + 1) (.exprT (.prefixE op rex) e) st).2
        simp only [evalF, h₁]
        cases o₁ with
        | fault m => exact f₁
        | ok r =>
          cases hE : isError st₁ r with
          | true => simp only [hE, if_true]; exact f₁
          | false =>
            simp only [hE, Bool.false_eq_true, if_false]
            exact envsFrame_trans f₁ (envsFrame_of_eq (evalPrefix_envs op r st₁))
      | infixE op lex rex =>
        have f₁ := ih (.optExprT lex e) st
        rcases h₁ : evalF fuel (.optExprT lex e) st with ⟨o₁, st₁⟩
        rw [h₁] at f₁
        show envsFrame [e] st (evalF (fuel + 1) (.exprT (.infixE op lex rex) e) st).2
        simp only [evalF, h₁]
        cases o₁ with
        | fault m => exact f₁
        | ok l =>
          cases hE : isError st₁ l with
          | true => simp only [hE, if_true]; exact f₁
          | false =>
            simp only [hE, Bool.false_eq_true, if_false]
            have f₂ := ih (.optExprT rex e) st₁
            rcases h₂ : evalF fuel (.optExprT rex e) st₁ with ⟨o₂, st₂⟩
            rw [h₂] at f₂
            cases o₂ with
            | fault m => exact envsFrame_trans f₁ f₂
            | ok r =>
              cases hE₂ : isError st₂ r with
              | true => simp only [hE₂, if_true]; exact envsFrame_trans f₁ f₂
              | false =>
                simp only [hE₂, Bool.false_eq_true, if_false]
                exact envsFrame_trans f₁
                  (envsFrame_trans f₂ (envsFrame_of_eq (evalInfix_envs l op r st₂)))
    | optExprT oe e =>
      cases oe with
      | none => exact envsFrame_of_eq rfl
      | some ex => exact ih (.exprT ex e) st
    | stmtT s e =>
      cases s with
      | exprS oe => exact ih (.optExprT oe e) st
      | returnS oe =>
        have f₁ := ih (.optExprT oe e) st
        rcases h₁ : evalF fuel (.optExprT oe e) st with ⟨o₁, st₁⟩
        rw [h₁] at f₁
        show envsFrame [e] st (evalF (fuel + 1) (.stmtT (.returnS oe) e) st).2
        simp only [evalF, h₁]
        cases o₁ with
        | fault m => exact f₁
        | ok r =>
          cases hE : isError st₁ r with
          | true => simp only [hE, if_true]; exact f₁
          | false =>
            simp only [hE, Bool.false_eq_true, if_false]
            exact envsFrame_trans f₁ (envsFrame_of_eq rfl)
      | letS n oe =>
        have f₁ := ih (.optExprT oe e) st
        rcases h₁ : evalF fuel (.optExprT oe e) st with ⟨o₁, st₁⟩
        rw [h₁] at f₁
        show envsFrame [e] st (evalF (fuel + 1) (.stmtT (.letS n oe) e) st).2
        simp only [evalF, h₁]
        cases o₁ with
        | fault m => exact f₁
        | ok r =>
          cases hE : isError st₁ r with
          | true => simp only [hE, if_true]; exact f₁
          | false =>
            simp only [hE, Bool.false_eq_true, if_false]
            exact envsFrame_trans f₁ (envSet_frame st₁ e n r [e] (by simp))
    | progT ss res e =>
      cases ss with
      | nil => exact envsFrame_of_eq rfl
      | cons s₀ rest =>
        cases s₀ with
        | none => exact envsFrame_of_eq rfl
        | some s =>
          have f₁ := ih (.stmtT s e) st
          rcases h₁ : evalF fuel (.stmtT s e) st with ⟨o₁, st₁⟩
          rw [h₁] at f₁
          show envsFrame [e] st (evalF (fuel + 1) (.progT (some s :: rest) res e) st).2
          simp only [evalF, h₁]
          cases o₁ with
          | fault m => exact f₁
          | ok r =>
            cases hG : getOpt st₁ r with
            | none => simp only [hG]; exact envsFrame_trans f₁ (ih (.progT rest r e) st₁)
            | some o =>
              cases o with
              | retH v => simp only [hG]; exact f₁
              | errH m => simp only [hG]; exact f₁
              | nullH => simp only [hG]; exact envsFrame_trans f₁ (ih (.progT rest r e) st₁)
              | boolH b => simp only [hG]; exact envsFrame_trans f₁ (ih (.progT rest r e) st₁)
              | intH v => simp only [hG]; exact envsFrame_trans f₁ (ih (.progT rest r e) st₁)
              | funH ps body fenv =>
                simp only [hG]; exact envsFrame_trans f₁ (ih (.progT rest r e) st₁)
    | blockT ss res e =>
      cases ss with
      | nil => exact envsFrame_of_eq rfl
      | cons s₀ rest =>
        cases s₀ with
        | none => exact envsFrame_of_eq rfl
        | some s =>
          have f₁ := ih (.stmtT s e) st
          rcases h₁ : evalF fuel (.stmtT s e) st with ⟨o₁, st₁⟩
          rw [h₁] at f₁
          show envsFrame [e] st (evalF (fuel + 1) (.blockT (some s :: rest) res e) st).2
          simp only [evalF, h₁]
          cases o₁ with
          | fault m => exact f₁
          | ok r =>
            cases hG : getOpt st₁ r with
            | none => simp only [hG]; exact envsFrame_trans f₁ (ih (.blockT rest r e) st₁)
            | some o =>
              cases o with
              | retH v => simp only [hG]; exact f₁
              | errH m => simp only [hG]; exact f₁
              | nullH => simp only [hG]; exact envsFrame_trans f₁ (ih (.blockT rest r e) st₁)
              | boolH b => simp only [hG]; exact envsFrame_trans f₁ (ih (.blockT rest r e) st₁)
              | intH v => simp only [hG]; exact envsFrame_trans f₁ (ih (.blockT rest r e) st₁)
              | funH ps body fenv =>
                simp only [hG]; exact envsFrame_trans f₁ (ih (.blockT rest r e) st₁)
    | ifT c cq alt e =>
      have f₁ := ih (.optExprT c e) st
      rcases h₁ : evalF fuel (.optExprT c e) st with ⟨o₁, st₁⟩
      rw [h₁] at f₁
      show envsFrame [e] st (evalF (fuel + 1) (.ifT c cq alt e) st).2
      simp only [evalF, h₁]
      cases o₁ with
      | fault m => exact f₁
      | ok r =>
        cases hT : isTruthy r with
        | true =>
          simp only [hT, if_true]
          exact envsFrame_trans f₁ (ih (.blockT cq none e) st₁)
        | false =>
          simp only [hT, Bool.false_eq_true, if_false]
          cases alt with
          | some ab => exact envsFrame_trans f₁ (ih (.blockT ab none e) st₁)
          | none => exact f₁
    | argsT args ps e ne =>
      cases args with
      | nil => exact envsFrame_of_eq rfl
      | cons a args₂ =>
        cases ps with
        | nil => exact envsFrame_of_eq rfl
        | cons pn ps₂ =>
          have f₁ : envsFrame [e, ne] st (evalF fuel (.optExprT a e) st).2 :=
            envsFrame_mono (ih (.optExprT a e) st)
              (by intro i hi; simp [touched] at hi ⊢; exact Or.inl hi)
          rcases h₁ : evalF fuel (.optExprT a e) st with ⟨o₁, st₁⟩
          rw [h₁] at f₁
          show envsFrame [e, ne] st
            (evalF (fuel + 1) (.argsT (a :: args₂) (pn :: ps₂) e ne) st).2
          simp only [evalF, h₁]
          cases o₁ with
          | fault m => exact f₁
          | ok r =>
            cases hE : isError st₁ r with
            | true => simp only [hE, if_true]; exact f₁
            | false =>
              simp only [hE, Bool.false_eq_true, if_false]
              exact envsFrame_trans f₁
                (envsFrame_trans (envSet_frame st₁ ne pn r [e, ne] (by simp))
                  (ih (.argsT args₂ ps₂ e ne) (envSet st₁ ne pn r)))
    | callT f args e =>
      have f₁ := ih (.optExprT f e) st
      rcases h₁ : evalF fuel (.optExprT f e) st with ⟨o₁, st₁⟩
      rw [h₁] at f₁
      show envsFrame [e] st (evalF (fuel + 1) (.callT f args e) st).2
      simp only [evalF, h₁]
      cases o₁ with
      | fault m => exact f₁
      | ok fr =>
        cases hE : isError st₁ fr with
        | true => simp only [hE, if_true]; exact f₁
        | false =>
          simp only [hE, Bool.false_eq_true, if_false]
          cases fr with
          | none => exact f₁
          | some fref =>
            cases hO : getObj st₁ fref with
            | none => simp only [hO]; exact f₁
            | some o =>
              cases o with
              | nullH => simp only [hO]; exact envsFrame_trans f₁ (envsFrame_of_eq rfl)
              | boolH b => simp only [hO]; exact envsFrame_trans f₁ (envsFrame_of_eq rfl)
              | intH v => simp only [hO]; exact envsFrame_trans f₁ (envsFrame_of_eq rfl)
              | retH v => simp only [hO]; exact envsFrame_trans f₁ (envsFrame_of_eq rfl)
              | errH m => simp only [hO]; exact envsFrame_trans f₁ (envsFrame_of_eq rfl)
              | funH ps body fenv =>
                simp only [hO]
                by_cases hL : (args.getD []).length ≠ (ps.getD []).length
                · rw [if_pos hL]
                  exact envsFrame_trans f₁ (envsFrame_of_eq rfl)
                · rw [if_neg hL]
                  have f₂ : envsFrame ([e] : List Nat) st₁
                      (newEnclosedEnvironment st₁ fenv).2 :=
                    newEnclosed_frame st₁ fenv [e]
                  have f₃ := ih
                    (.argsT (args.getD []) (ps.getD []) e (newEnclosedEnvironment st₁ fenv).1)
                    (newEnclosedEnvironment st₁ fenv).2
                  rcases h₃ : evalF fuel
                      (.argsT (args.getD []) (ps.getD []) e (newEnclosedEnvironment st₁ fenv).1)
                      (newEnclosedEnvironment st₁ fenv).2 with ⟨o₃, st₃⟩
                  rw [h₃] at f₃
                  -- combined frame from st up to st₃, excluding only e:
                  -- a pre-existing index below the length of st.envs is
                  -- strictly below the fresh index ne.
                  have fPre : envsFrame [e] st st₃ := by
                    refine ⟨?_, ?_⟩
                    · calc st.envs.length ≤ st₁.envs.length := f₁.1
                        _ ≤ (newEnclosedEnvironment st₁ fenv).2.envs.length := f₂.1
                        _ ≤ st₃.envs.length := f₃.1
                    · intro i hi hm
                      have hi₁ : i < st₁.envs.length := lt_of_lt_of_le hi f₁.1
                      have hi₂ : i < (newEnclosedEnvironment st₁ fenv).2.envs.length :=
                        lt_of_lt_of_le hi₁ (by rw [newEnclosed_len]; omega)
                      have hne : i ≠ (newEnclosedEnvironment st₁ fenv).1 := by
                        have : (newEnclosedEnvironment st₁ fenv).1 = st₁.envs.length := rfl
                        omega
                      have hm₂ : i ∉ ([e, (newEnclosedEnvironment st₁ fenv).1] : List Nat) := by
                        simp at hm ⊢
                        exact ⟨hm, hne⟩
                      rw [f₃.2 i hi₂ hm₂, f₂.2 i hi₁ hm, f₁.2 i hi hm]
                  cases o₃ with
                  | fault m => exact fPre
                  | ok r₃ =>
                    cases r₃ with
                    | some errref => exact fPre
                    | none =>
                      have f₄ := ih (.blockT body none (newEnclosedEnvironment st₁ fenv).1) st₃
                      rcases h₄ : evalF fuel
                          (.blockT body none (newEnclosedEnvironment st₁ fenv).1) st₃ with ⟨o₄, st₄⟩
                      rw [h₄] at f₄
                      have fPost : envsFrame [e] st st₄ := by
                        refine ⟨le_trans fPre.1 f₄.1, ?_⟩
                        intro i hi hm
                        have hi₃ : i < st₃.envs.length := lt_of_lt_of_le hi fPre.1
                        have hne : i ≠ (newEnclosedEnvironment st₁ fenv).1 := by
                          have h₅ : (newEnclosedEnvironment st₁ fenv).1 = st₁.envs.length := rfl
                          have hi₁ : i < st₁.envs.length := lt_of_lt_of_le hi f₁.1
                          omega
                        rw [f₄.2 i hi₃ (by simpa [touched] using hne), fPre.2 i hi hm]
                      simp only [h₄]
                      cases o₄ with
                      | fault m => exact fPost
                      | ok r₄ =>
                        cases hG : getOpt st₄ r₄ with
                        | none => simp only [hG]; exact fPost
                        | some o₄o => cases o₄o <;> simp only [hG] <;> exact fPost

theorem listGetSetSelf {α : Type} (l : List α) (i : Nat) (a : α) (h : i < l.length) :
    (l.set i a).get? i = some a := by
  induction l generalizing i with
  | nil => exact absurd h (by simp)
  | cons x xs ih =>
    cases i with
    | zero => rfl
    | succ i => simpa using ih i (by simpa using h)

theorem listGetSomeLt {α : Type} (l : List α) (i : Nat) (a : α) (h : l.get? i = some a) :
    i < l.length := by
  induction l generalizing i with
  | nil => simp [List.get?] at h
  | cons x xs ih =>
    cases i with
    | zero => simp
    | succ i => exact Nat.succ_lt_succ (ih i h)

/-- C10 counterexample: the claim reads that every binding of the global
environment is unchanged by a call.  Argument expressions, however, are
evaluated in the CALLER environment, and an if-block inside an argument
runs its statements there: in
let g = 1; let f = fn(x) { x; }; f(if (true) { let g = 99; 2 }); g;
the call statement rebinds g in the global store (from the object
holding 1 to a new object holding 99), and the program answers 99.
Without the call statement g stays bound to the object holding 1. -/
theorem C10_global_binding_changed_cex :
    runProgram 80 progGlobalMut =
      (.ok (some 5),
       ⟨[.nullH, .boolH true, .boolH false, .intH 1,
         .funH (some ["x"]) [some (.exprS (some (.identE "x")))] 0, .intH 99, .intH 2],
        [⟨[("g", some 5), ("f", some 4)], none⟩, ⟨[("x", some 6)], some 0⟩]⟩) ∧
    getObj (runProgram 80 progGlobalMut).2 5 = some (.intH 99) ∧
    runProgram 80 progGlobalMutNoCall =
      (.ok (some 3),
       ⟨[.nullH, .boolH true, .boolH false, .intH 1,
         .funH (some ["x"]) [some (.exprS (some (.identE "x")))] 0],
        [⟨[("g", some 3), ("f", some 4)], none⟩]⟩) :=
  ⟨rfl, rfl, rfl⟩

/-- C10 amended: Environment.Set binds the name in the own store of the
designated environment and leaves every other environment of the heap
untouched, so a let in a function body binds in the fresh enclosed
environment of that call; evaluating any block at an environment eb
(in particular a function body at its fresh enclosed environment)
preserves every pre-existing environment other than eb, the global one
included.  Argument expressions, though, run in the caller environment
and may rebind names there, as the counterexample shows. -/
theorem C10_set_locality_and_body_frame :
    (∀ st e n v i, i ≠ e → (envSet st e n v).envs.get? i = st.envs.get? i) ∧
    (∀ st e n v sc, st.envs.get? e = some sc →
      (envSet st e n v).envs.get? e = some ⟨storeInsert sc.store n v, sc.outer⟩) ∧
    (∀ fuel ss res eb st i, i < st.envs.length → i ≠ eb →
      (evalF fuel (.blockT ss res eb) st).2.envs.get? i = st.envs.get? i) := by
  refine ⟨?_, ?_, ?_⟩
  · intro st e n v i h
    unfold envSet
    cases hg : st.envs.get? e with
    | none => rfl
    | some sc => exact listGetSetNe _ e i _ (fun hh => h hh.symm)
  · intro st e n v sc h
    unfold envSet
    rw [h]
    exact listGetSetSelf _ e _ (listGetSomeLt _ e sc h)
  · intro fuel ss res eb st i hi hne
    exact (evalF_frame fuel (.blockT ss res eb) st).2 i hi (by simpa [touched] using hne)

/-- C10 witness: the body-frame conjunct at a concrete two-environment
heap: running the block let x = 7; at the enclosed environment 1 leaves
environment 0 (the global store) exactly as it was. -/
theorem C10_set_locality_and_body_frame_w :
    (evalF 20 (.blockT [some (.letS "x" (some (.intE 7)))] none 1)
        ⟨[.nullH, .boolH true, .boolH false],
         [⟨[("keep", some 0)], none⟩, ⟨[], some 0⟩]⟩).2.envs.get? 0 =
      some ⟨[("keep", some 0)], none⟩ := by
  have h := C10_set_locality_and_body_frame.2.2 20
    [some (.letS "x" (some (.intE 7)))] none 1
    ⟨[.nullH, .boolH true, .boolH false],
     [⟨[("keep", some 0)], none⟩, ⟨[], some 0⟩]⟩ 0 (by decide) (by decide)
  rw [h]
  rfl
